import Mathlib

/-!
Shallow embedding of `src/logger.rs` (rust-betterstack_logger): a `log`-facade
adapter that filters records by a per-module level table and ships each
admitted record to the BetterStack ingestion endpoint over HTTP.

Conventions of the embedding:
* Rust `usize` arithmetic is `Nat` with explicit reduction modulo `2 ^ 64`
  (`wrapping_neg` below).
* The table `module_levels : Vec<(String, LevelFilter)>` is a
  `List (String × LevelFilter)`; `Vec::sort_by_key` (a stable sort) is
  embedded as a stable insertion sort on the same key.
* Fallible operations return `Except`; an `unwrap` is the `Except.error`
  branch of the surrounding function.
* External collaborators (the `log` facade's global registry, `serde_json`
  string serialization, the HTTP client) are embedded explicitly from their
  documented contracts, since their code is not part of this repository.
-/

/-- The `log` crate's `Level` enum, numeric order `Error = 1 < ... < Trace = 5`. -/
inductive Level where
  | Error
  | Warn
  | Info
  | Debug
  | Trace
deriving DecidableEq

/-- The `log` crate's `LevelFilter` enum, numeric order `Off = 0 < Error = 1 < ... < Trace = 5`. -/
inductive LevelFilter where
  | Off
  | Error
  | Warn
  | Info
  | Debug
  | Trace
deriving DecidableEq

/-- The numeric discriminant of a `LevelFilter`, which drives its derived `PartialOrd`/`Ord`. -/
def filterRank : LevelFilter → Nat
  | .Off => 0
  | .Error => 1
  | .Warn => 2
  | .Info => 3
  | .Debug => 4
  | .Trace => 5

/-- `Level::to_level_filter`. -/
def Level.to_level_filter : Level → LevelFilter
  | .Error => .Error
  | .Warn => .Warn
  | .Info => .Info
  | .Debug => .Debug
  | .Trace => .Trace

/-- The `log` crate's `<=` on `LevelFilter` (derived from declaration order). -/
def fle (a b : LevelFilter) : Bool :=
  decide (filterRank a ≤ filterRank b)

/-- `Ord::max` on `LevelFilter`: returns the second argument when the two are equal. -/
def filterMax (a b : LevelFilter) : LevelFilter :=
  if filterRank a ≤ filterRank b then b else a

/-- Severity rank under the `Trace < Debug < Info < Warn < Error` ordering of the spec. -/
def sevRank : Level → Nat
  | .Trace => 0
  | .Debug => 1
  | .Info => 2
  | .Warn => 3
  | .Error => 4

/-- Severity rank of a non-`Off` threshold under `Trace < Debug < Info < Warn < Error`.
`Off` is mapped to `5`, strictly above every `sevRank`, so it admits nothing. -/
def sevRankF : LevelFilter → Nat
  | .Off => 5
  | .Error => 4
  | .Warn => 3
  | .Info => 2
  | .Debug => 1
  | .Trace => 0

/-- Rust `str::starts_with`: on valid UTF-8, byte-level equality with char-list equality. -/
def strStartsWith (s p : String) : Bool :=
  List.isPrefixOf p.data s.data

/-- `name.len().wrapping_neg()` on a 64-bit `usize`: the sort key used by
`with_module_level` / `with_target_levels`. Note `wrapping_neg 0 = 0`. -/
def sortKey (name : String) : Nat :=
  (2 ^ 64 - name.length) % 2 ^ 64

/-- Insert an entry into a list already sorted by ascending `sortKey`, after all
entries of key less than or equal to its own (the placement a stable sort gives it). -/
def insertSorted (p : String × LevelFilter) : List (String × LevelFilter) → List (String × LevelFilter)
  | [] => [p]
  | q :: qs => if sortKey p.1 < sortKey q.1 then p :: q :: qs else q :: insertSorted p qs

/-- `Vec::sort_by_key(|(name, _)| name.len().wrapping_neg())`: a stable sort by
ascending `sortKey`, embedded as a stable insertion sort (the stable sort of a
list is a unique result, so any stable algorithm embeds it). -/
def stableSortByKey (l : List (String × LevelFilter)) : List (String × LevelFilter) :=
  l.foldl (fun acc p => insertSorted p acc) []

/-- The logger's configuration state. The `reqwest::Client` field carries no
observable state and is omitted; the cfg-gated `threads` / `timestamps` fields
are absent in the default feature set the crate compiles with. -/
structure BetterStackLogger where
  default_level : LevelFilter
  module_levels : List (String × LevelFilter)
  source_token : String
deriving DecidableEq

/-- `BetterStackLogger::new`. -/
def BetterStackLogger.new (source_token : String) : BetterStackLogger :=
  { default_level := .Trace, module_levels := [], source_token := source_token }

/-- `BetterStackLogger::with_level`. -/
def BetterStackLogger.with_level (l : BetterStackLogger) (level : LevelFilter) : BetterStackLogger :=
  { l with default_level := level }

/-- `BetterStackLogger::with_module_level`: push the new pair, then stable-sort
the vector by `name.len().wrapping_neg()`. -/
def BetterStackLogger.with_module_level (l : BetterStackLogger) (target : String)
    (level : LevelFilter) : BetterStackLogger :=
  { l with module_levels := stableSortByKey (l.module_levels ++ [(target, level)]) }

/-- `BetterStackLogger::with_target_levels`: replace the table by the map's
entries (`HashMap` iteration order is unspecified, so the entry list is a
parameter), then stable-sort by the same key. -/
def BetterStackLogger.with_target_levels (l : BetterStackLogger)
    (target_levels : List (String × LevelFilter)) : BetterStackLogger :=
  { l with module_levels := stableSortByKey target_levels }

/-- The threshold scan inside `Log::enabled`: the first entry of `module_levels`
whose name is a literal start of the target, else the default level. -/
def resolve (l : BetterStackLogger) (target : String) : LevelFilter :=
  ((l.module_levels.find? (fun p => strStartsWith target p.1)).map Prod.snd).getD l.default_level

/-- `Log::enabled for BetterStackLogger`:
`metadata.level().to_level_filter() <= (scan of module_levels, default on no match)`. -/
def enabled (l : BetterStackLogger) (level : Level) (target : String) : Bool :=
  fle level.to_level_filter
    (((l.module_levels.find? (fun p => strStartsWith target p.1)).map Prod.snd).getD l.default_level)

/-- Follows the spec's words, for comparison with `resolve`: the threshold of
the override whose name is the longest string that starts the target; the
default when no override matches. -/
def resolveSpec (l : BetterStackLogger) (target : String) : LevelFilter :=
  let hits := l.module_levels.filter (fun p => strStartsWith target p.1)
  match hits.foldl (fun best p =>
      match best with
      | none => some p
      | some q => if q.1.length < p.1.length then some p else some q) none with
  | some p => p.2
  | none => l.default_level

/-- `Bool` check that a table is sorted by descending name length. -/
def sortedByDescLen : List (String × LevelFilter) → Bool
  | [] => true
  | [_] => true
  | p :: q :: rest => (q.1.length ≤ p.1.length) && sortedByDescLen (q :: rest)

/-- The logger state reached by
`BetterStackLogger::new("t").with_module_level("db", Warn).with_module_level("", Info)`. -/
def bugLogger : BetterStackLogger :=
  ((BetterStackLogger.new "t").with_module_level "db" .Warn).with_module_level "" .Info

/-- `BetterStackLogger::max_level`:
`module_levels.iter().map(level).max()`, then `max` with the default, else the default. -/
def iterMaxOpt (fs : List LevelFilter) : Option LevelFilter :=
  fs.foldl (fun acc f =>
    match acc with
    | none => some f
    | some m => some (filterMax m f)) none

/-- `BetterStackLogger::max_level`. -/
def max_level (l : BetterStackLogger) : LevelFilter :=
  match iterMaxOpt (l.module_levels.map Prod.snd) with
  | some m => filterMax m l.default_level
  | none => l.default_level

/-- A `log::Record`'s observable payload: metadata level and target, the
rendered `args()`, and the optional source-location fields. -/
structure Record where
  level : Level
  target : String
  module_path : Option String
  message : String
  file : Option String
  line : Option Nat
deriving DecidableEq

/-- `Display` for `log::Level`: the upper-case name. -/
def levelName : Level → String
  | .Error => "ERROR"
  | .Warn => "WARN"
  | .Info => "INFO"
  | .Debug => "DEBUG"
  | .Trace => "TRACE"

/-- `format!("{:<5}", s)`: left-align and pad with spaces to width 5. -/
def padTo5 (s : String) : String :=
  s ++ String.mk (List.replicate (5 - s.length) ' ')

/-- The `level_string` of `build_log_message`: `format!("{:<5}", record.level().to_string())`. -/
def level_string (lev : Level) : String :=
  padTo5 (levelName lev)

/-- `build_log_message` in the default feature set (`threads` and `timestamps`
off, so the `thread` and `timestamp` pieces are the empty string): the plain
formatted line `format!("{}{} [{}{}] {}", ...)`. -/
def build_log_message (r : Record) : String :=
  let level_str := level_string r.level
  let target := if r.target ≠ "" then r.target else r.module_path.getD ""
  let thread := ""
  let timestamp := ""
  timestamp ++ level_str ++ " [" ++ target ++ thread ++ "] " ++ r.message

/-- A JSON document, as far as the claims need its shape. -/
inductive Json where
  | str : String → Json
  | arr : List Json → Json
  | obj : List (String × Json) → Json

/-- Whether a JSON document is an object. -/
def Json.isObj : Json → Bool
  | .obj _ => true
  | _ => false

/-- Hexadecimal digit (lower case), used by the `\u00XX` escapes. -/
def hexDigit (n : Nat) : Char :=
  if n < 10 then Char.ofNat (48 + n) else Char.ofNat (87 + n)

/-- serde_json's escaping of one character inside a JSON string literal:
`"` and `\` are backslash-escaped, control characters below `0x20` get their
short escapes (`\b`, `\f`, `\n`, `\r`, `\t`) or `\u00XX`; all else is itself. -/
def escapeChar (c : Char) : String :=
  if c = '\"' then "\\\""
  else if c = '\\' then "\\\\"
  else if c = Char.ofNat 8 then "\\b"
  else if c = Char.ofNat 12 then "\\f"
  else if c = '\n' then "\\n"
  else if c = '\r' then "\\r"
  else if c = '\t' then "\\t"
  else if c.toNat < 32 then
    String.mk ['\\', 'u', '0', '0', hexDigit (c.toNat / 16), hexDigit (c.toNat % 16)]
  else String.mk [c]

/-- serde_json's escaping of a whole string. -/
def escapeJson (s : String) : String :=
  String.join (s.data.map escapeChar)

/-- The wire text of a JSON string document: quote, escaped content, quote. -/
def renderJsonStr (s : String) : String :=
  "\"" ++ escapeJson s ++ "\""

/-- `serde_json::to_string` applied to a Rust `String`, as `log` does with the
built message. Serializing a `String` emits one JSON string literal into an
in-memory buffer; no error path is reachable, which the `Except` makes visible. -/
def serdeToStringStr (s : String) : Except String String :=
  Except.ok (renderJsonStr s)

/-- The JSON document that `log`'s request body encodes: the serialized value is
the plain `String` returned by `build_log_message`, hence a JSON string. -/
def bodyJson (r : Record) : Json :=
  Json.str (build_log_message r)

/-- The request body text `serde_json::to_string(&log_message).unwrap()` produces. -/
def bodyText (r : Record) : String :=
  renderJsonStr (build_log_message r)

/-- The observable parts of the `reqwest` POST built inside `log`. -/
structure HttpRequest where
  url : String
  bearer : String
  contentType : String
  body : String
deriving DecidableEq

/-- The outcome the HTTP client hands back for one request: a status code and
response body, or a network error. -/
inductive NetResult where
  | success : Nat → String → NetResult
  | netError : String → NetResult

/-- The spawned send task: `let _ = client.post(...).send().await;` — the
outcome, whatever it is, is discarded. -/
def sendTask (net : HttpRequest → NetResult) (req : HttpRequest) : Unit :=
  match net req with
  | NetResult.success _ _ => ()
  | NetResult.netError _ => ()

/-- `Log::log for BetterStackLogger`: admission check, message build, JSON
serialization with `.unwrap()` (the `Except.error` branch is that unwrap's
would-be panic), then the fire-and-forget POST. The environment `net` stands
for the network's answer; the returned request is what was handed to it. -/
def logCall (l : BetterStackLogger) (net : HttpRequest → NetResult) (r : Record) :
    Except String (Option HttpRequest) :=
  if enabled l r.level r.target then
    match serdeToStringStr (build_log_message r) with
    | Except.ok body =>
      let req : HttpRequest :=
        { url := "https://api.betterstack.com/logs"
          bearer := "Bearer " ++ l.source_token
          contentType := "application/json"
          body := body }
      match sendTask net req with
      | () => Except.ok (some req)
    | Except.error e => Except.error e
  else
    Except.ok none

/-- The `log` crate's `SetLoggerError`: the only error `init` can surface. -/
inductive SetLoggerError where
  | AlreadySet
deriving DecidableEq

/-- The process-wide state owned by the external `log` facade: the global max
level and whether a boxed logger has already been installed. Embedded from the
facade's documented contract (its code is not part of this repository). -/
structure LogFacadeState where
  maxLevel : LevelFilter
  sinkInstalled : Bool
deriving DecidableEq

/-- `log::set_max_level`. -/
def set_max_level (st : LogFacadeState) (f : LevelFilter) : LogFacadeState :=
  { st with maxLevel := f }

/-- `log::set_boxed_logger`: errors exactly when a logger is already installed. -/
def set_boxed_logger (st : LogFacadeState) : Except SetLoggerError LogFacadeState :=
  if st.sinkInstalled then Except.error SetLoggerError.AlreadySet
  else Except.ok { st with sinkInstalled := true }

/-- `BetterStackLogger::init`: `log::set_max_level(self.max_level())` then
`log::set_boxed_logger(Box::new(self))`, returning the latter's result. -/
def BetterStackLogger.init (l : BetterStackLogger) (st : LogFacadeState) :
    Except SetLoggerError LogFacadeState :=
  set_boxed_logger (set_max_level st (max_level l))

/-- The free function `init(source_token)`. -/
def initFn (source_token : String) (st : LogFacadeState) : Except SetLoggerError LogFacadeState :=
  (BetterStackLogger.new source_token).init st

/-- Modelled from the spec: the bounded delivery channel of §4.3, which is not
in `src/` (the source's single-message variant spawns one task per record
instead). A bounded FIFO queue of capacity `capacity` holding normalized
messages. -/
structure DeliveryChannel where
  capacity : Nat
  queue : List String
deriving DecidableEq

/-- Modelled from the spec: the producer-side result of `try_enqueue`. -/
inductive EnqueueOutcome where
  | success
  | dropped
deriving DecidableEq

/-- Modelled from the spec: `try_enqueue(record) -> success | dropped` — total
(never blocks the producer); on a full queue the record is dropped and the
channel is unchanged, otherwise the record is appended. -/
def try_enqueue (c : DeliveryChannel) (r : String) : DeliveryChannel × EnqueueOutcome :=
  if c.capacity ≤ c.queue.length then (c, EnqueueOutcome.dropped)
  else ({ c with queue := c.queue ++ [r] }, EnqueueOutcome.success)

/-- A whole sequence of producer calls, in order. -/
def enqueueAll (c : DeliveryChannel) (rs : List String) : DeliveryChannel :=
  rs.foldl (fun ch r => (try_enqueue ch r).1) c

theorem fle_iff (a b : LevelFilter) : fle a b = true ↔ filterRank a ≤ filterRank b := by
  simp [fle]

theorem fle_trans {a b c : LevelFilter} (h1 : fle a b = true) (h2 : fle b c = true) :
    fle a c = true := by
  rw [fle_iff] at h1 h2 ⊢
  omega

theorem rank_le_filterMax_left (a b : LevelFilter) :
    filterRank a ≤ filterRank (filterMax a b) := by
  unfold filterMax
  split <;> omega

theorem rank_le_filterMax_right (a b : LevelFilter) :
    filterRank b ≤ filterRank (filterMax a b) := by
  unfold filterMax
  split <;> omega

theorem filterMax_cases (a b : LevelFilter) : filterMax a b = a ∨ filterMax a b = b := by
  unfold filterMax
  split
  · exact Or.inr rfl
  · exact Or.inl rfl

/-- `Iterator::max` folded over a list with a seed element. -/
def foldlMax (m : LevelFilter) (fs : List LevelFilter) : LevelFilter :=
  fs.foldl filterMax m

theorem rank_le_foldlMax_acc (fs : List LevelFilter) :
    ∀ m, filterRank m ≤ filterRank (foldlMax m fs) := by
  induction fs with
  | nil => intro m; exact Nat.le_refl _
  | cons f fs ih =>
    intro m
    exact Nat.le_trans (rank_le_filterMax_left m f) (ih (filterMax m f))

theorem rank_le_foldlMax_mem (fs : List LevelFilter) :
    ∀ m f, f ∈ fs → filterRank f ≤ filterRank (foldlMax m fs) := by
  induction fs with
  | nil => intro m f hf; cases hf
  | cons a as ih =>
    intro m f hf
    rcases List.mem_cons.mp hf with h | h
    · subst h
      exact Nat.le_trans (rank_le_filterMax_right m f) (rank_le_foldlMax_acc as (filterMax m f))
    · exact ih (filterMax m a) f h

theorem foldlMax_mem_or (fs : List LevelFilter) :
    ∀ m, foldlMax m fs = m ∨ foldlMax m fs ∈ fs := by
  induction fs with
  | nil => intro m; exact Or.inl rfl
  | cons a as ih =>
    intro m
    have hstep : foldlMax m (a :: as) = foldlMax (filterMax m a) as := rfl
    rcases ih (filterMax m a) with h | h
    · rcases filterMax_cases m a with hm | hm
      · exact Or.inl (by rw [hstep, h, hm])
      · exact Or.inr (by rw [hstep, h, hm]; exact List.mem_cons_self a as)
    · exact Or.inr (by rw [hstep]; exact List.mem_cons_of_mem a h)

theorem iterMaxOpt_some (fs : List LevelFilter) :
    ∀ m, iterMaxOpt (m :: fs) = some (foldlMax m fs) := by
  have aux : ∀ (gs : List LevelFilter) (m : LevelFilter),
      gs.foldl (fun acc f =>
        match acc with
        | none => some f
        | some k => some (filterMax k f)) (some m) = some (foldlMax m gs) := by
    intro gs
    induction gs with
    | nil => intro m; rfl
    | cons g gs ih => intro m; exact ih (filterMax m g)
  intro m
  exact aux fs m

theorem resolve_mem (l : BetterStackLogger) (t : String) :
    resolve l t = l.default_level ∨ ∃ p ∈ l.module_levels, resolve l t = p.2 := by
  unfold resolve
  cases h : l.module_levels.find? (fun p => strStartsWith t p.1) with
  | none => exact Or.inl rfl
  | some p =>
    refine Or.inr ⟨p, List.mem_of_find?_eq_some h, ?_⟩
    rfl

theorem rank_default_le_max_level (l : BetterStackLogger) :
    filterRank l.default_level ≤ filterRank (max_level l) := by
  unfold max_level
  cases hms : l.module_levels.map Prod.snd with
  | nil => simp [iterMaxOpt]
  | cons a as =>
    rw [iterMaxOpt_some]
    exact rank_le_filterMax_right _ _

theorem rank_entry_le_max_level (l : BetterStackLogger) (p : String × LevelFilter)
    (hp : p ∈ l.module_levels) : filterRank p.2 ≤ filterRank (max_level l) := by
  have hmem : p.2 ∈ l.module_levels.map Prod.snd := List.mem_map_of_mem Prod.snd hp
  unfold max_level
  cases hms : l.module_levels.map Prod.snd with
  | nil => rw [hms] at hmem; cases hmem
  | cons a as =>
    rw [iterMaxOpt_some]
    rw [hms] at hmem
    have h1 : filterRank p.2 ≤ filterRank (foldlMax a as) := by
      rcases List.mem_cons.mp hmem with h | h
      · rw [h]; exact rank_le_foldlMax_acc as a
      · exact rank_le_foldlMax_mem as a p.2 h
    exact Nat.le_trans h1 (rank_le_filterMax_left _ _)

theorem rank_resolve_le_max_level (l : BetterStackLogger) (t : String) :
    filterRank (resolve l t) ≤ filterRank (max_level l) := by
  rcases resolve_mem l t with h | ⟨p, hp, h⟩
  · rw [h]; exact rank_default_le_max_level l
  · rw [h]; exact rank_entry_le_max_level l p hp

/-- C1: with an empty-prefix override in the table, the scan in `enabled` does
NOT return the longest matching override's threshold. Built by
`new("t").with_module_level("db", Warn).with_module_level("", Info)`:
`name.len().wrapping_neg()` is `0` for the empty name, the smallest possible
key, so the empty override sorts first and shadows the longer match `"db"`.
The scan yields `Info` where the longest start of `"db.connection"` in the
table, namely `"db"`, carries `Warn`. -/
theorem resolve_empty_override_shadows :
    resolve bugLogger "db.connection" = LevelFilter.Info
  ∧ resolveSpec bugLogger "db.connection" = LevelFilter.Warn
  ∧ LevelFilter.Info ≠ LevelFilter.Warn := by
  decide

/-- C2: the table reached by
`new("t").with_module_level("db", Warn).with_module_level("", Info)` is
`[("", Info), ("db", Warn)]`, which is not sorted by descending name length:
the `wrapping_neg` sort key puts a zero-length name first, not last. -/
theorem module_levels_unsorted_after_empty_override :
    bugLogger.module_levels = [("", LevelFilter.Info), ("db", LevelFilter.Warn)]
  ∧ sortedByDescLen bugLogger.module_levels = false := by
  decide

/-- C3: the admission check `enabled` accepts a severity and target exactly
when the resolved threshold is not `Off` and the record's severity is at least
the threshold's severity under the `Trace < Debug < Info < Warn < Error`
ordering. -/
theorem enabled_iff_severity_ge_resolve (l : BetterStackLogger) (lev : Level) (t : String) :
    enabled l lev t = true ↔
      (resolve l t ≠ LevelFilter.Off ∧ sevRankF (resolve l t) ≤ sevRank lev) := by
  have h : enabled l lev t = fle lev.to_level_filter (resolve l t) := rfl
  rw [h]
  cases hr : resolve l t <;> cases lev <;> decide

/-- A concrete admitted record (target `"app"`, message `"hello"`). -/
def recC4 : Record :=
  { level := .Info, target := "app", module_path := some "app",
    message := "hello", file := some "main.rs", line := some 10 }

/-- C4, counterexample: for the admitted record `recC4` the request body is the
JSON string `"INFO  [app] hello"`, not a JSON object — there are no
severity/target/message/file/line/module_path fields. -/
theorem request_body_not_object_cex :
    Json.isObj (bodyJson recC4) = false
  ∧ bodyJson recC4 = Json.str "INFO  [app] hello"
  ∧ bodyText recC4 = "\"INFO  [app] hello\"" := by
  refine ⟨rfl, ?_, by decide⟩
  show Json.str (build_log_message recC4) = Json.str "INFO  [app] hello"
  congr 1

/-- C4, amended: for every record the request body is a single JSON string
holding the formatted line built by `build_log_message`; it is never a JSON
object, and on the wire it is that line escaped between double quotes. -/
theorem request_body_is_json_string (r : Record) :
    bodyJson r = Json.str (build_log_message r)
  ∧ Json.isObj (bodyJson r) = false
  ∧ ∃ s, bodyText r = "\"" ++ s ++ "\"" := by
  exact ⟨rfl, rfl, escapeJson (build_log_message r), rfl⟩

/-- C5: `build_log_message` brackets the record's own target when it is
non-empty, and falls back to the record's module path (empty string when that
is absent) when the target is empty. -/
theorem build_log_message_target_choice (r : Record) :
    (r.target ≠ "" →
      build_log_message r = level_string r.level ++ " [" ++ r.target ++ "] " ++ r.message)
  ∧ (r.target = "" →
      build_log_message r =
        level_string r.level ++ " [" ++ r.module_path.getD "" ++ "] " ++ r.message) := by
  constructor
  · intro h
    simp only [build_log_message, if_pos h, String.empty_append, String.append_empty]
  · intro h
    simp only [build_log_message, h, ne_eq, not_true_eq_false, if_false,
      String.empty_append, String.append_empty]

/-- Concrete record with a non-empty target. -/
def recC5a : Record :=
  { level := .Info, target := "app", module_path := some "mod",
    message := "hi", file := none, line := none }

/-- Concrete record with an empty target and a module path. -/
def recC5b : Record :=
  { level := .Info, target := "", module_path := some "mod",
    message := "hi", file := none, line := none }

/-- Witness for C5: at `recC5a` the non-empty target `"app"` is used, at
`recC5b` the empty target falls back to the module path `"mod"`. -/
theorem build_log_message_target_choice_witness :
    build_log_message recC5a = "INFO  [app] hi"
  ∧ build_log_message recC5b = "INFO  [mod] hi" := by
  constructor
  · exact ((build_log_message_target_choice recC5a).1 (by decide)).trans (by decide)
  · exact ((build_log_message_target_choice recC5b).2 rfl).trans (by decide)

/-- C6: `init` fails exactly when a global sink is already installed, the error
is `SetLoggerError` (the sole failure the API surfaces), the result is returned
directly by `init`, and the free `init(source_token)` goes through the same
routine on a fresh logger. -/
theorem init_error_iff_installed (l : BetterStackLogger) (tok : String) (st : LogFacadeState) :
    ((BetterStackLogger.init l st).isOk = false ↔ st.sinkInstalled = true)
  ∧ (∀ e, BetterStackLogger.init l st = Except.error e → e = SetLoggerError.AlreadySet)
  ∧ initFn tok st = BetterStackLogger.init (BetterStackLogger.new tok) st := by
  refine ⟨?_, ?_, rfl⟩
  · cases hsi : st.sinkInstalled <;>
      simp [BetterStackLogger.init, set_boxed_logger, set_max_level, hsi, Except.isOk, Except.toBool]
  · intro e he
    cases e
    rfl

/-- C7: the value `log` returns does not depend on the network's answer at all
(status and body are ignored, no error propagates), `log` returns normally on
every record, and the spawned send task discards whatever outcome it gets. -/
theorem log_swallows_transport_outcome (l : BetterStackLogger) (r : Record)
    (net net' : HttpRequest → NetResult) :
    logCall l net r = logCall l net' r
  ∧ (logCall l net r).isOk = true
  ∧ (∀ req, sendTask net req = ()) := by
  refine ⟨rfl, ?_, fun req => rfl⟩
  unfold logCall
  split
  · rfl
  · rfl

theorem try_enqueue_fst_capacity (c : DeliveryChannel) (r : String) :
    (try_enqueue c r).1.capacity = c.capacity := by
  unfold try_enqueue
  split <;> rfl

theorem try_enqueue_fst_len (c : DeliveryChannel) (r : String)
    (h : c.queue.length ≤ c.capacity) :
    (try_enqueue c r).1.queue.length ≤ c.capacity := by
  unfold try_enqueue
  split
  · exact h
  · show (c.queue ++ [r]).length ≤ c.capacity
    simp only [List.length_append, List.length_cons, List.length_nil]
    omega

theorem enqueueAll_bounded (rs : List String) :
    ∀ c : DeliveryChannel, (enqueueAll c rs).capacity = c.capacity
      ∧ (c.queue.length ≤ c.capacity → (enqueueAll c rs).queue.length ≤ c.capacity) := by
  induction rs with
  | nil => intro c; exact ⟨rfl, fun h => h⟩
  | cons r rs ih =>
    intro c
    have hstep : enqueueAll c (r :: rs) = enqueueAll (try_enqueue c r).1 rs := rfl
    have hcap := try_enqueue_fst_capacity c r
    refine ⟨?_, ?_⟩
    · rw [hstep, (ih (try_enqueue c r).1).1, hcap]
    · intro h
      rw [hstep]
      have := (ih (try_enqueue c r).1).2
      rw [hcap] at this
      exact this (try_enqueue_fst_len c r h)

/-- C8: `try_enqueue` is a total step (the producer is never blocked): on a
full channel it drops the record and leaves the channel unchanged, otherwise it
appends and reports success; and along any sequence of producer calls a channel
within capacity stays within capacity — excess records are dropped, never
back-pressured. -/
theorem try_enqueue_drop_on_full (c : DeliveryChannel) (r : String) (rs : List String) :
    (c.capacity ≤ c.queue.length → try_enqueue c r = (c, EnqueueOutcome.dropped))
  ∧ (c.queue.length < c.capacity →
      (try_enqueue c r).2 = EnqueueOutcome.success
      ∧ (try_enqueue c r).1.queue = c.queue ++ [r])
  ∧ (c.queue.length ≤ c.capacity → (enqueueAll c rs).queue.length ≤ c.capacity)
  ∧ (enqueueAll c rs).capacity = c.capacity := by
  refine ⟨?_, ?_, (enqueueAll_bounded rs c).2, (enqueueAll_bounded rs c).1⟩
  · intro h
    unfold try_enqueue
    rw [if_pos h]
  · intro h
    unfold try_enqueue
    rw [if_neg (by omega)]
    exact ⟨rfl, rfl⟩

/-- A channel of capacity 2 that is already full. -/
def chanFull : DeliveryChannel := { capacity := 2, queue := ["a", "b"] }

/-- Witness for C8: enqueueing onto the full `chanFull` drops the record and
changes nothing, and pushing three records through a capacity-1 channel leaves
at most one queued. -/
theorem try_enqueue_drop_on_full_witness :
    try_enqueue chanFull "c" = (chanFull, EnqueueOutcome.dropped)
  ∧ (enqueueAll { capacity := 1, queue := [] } ["x", "y", "z"]).queue.length ≤ 1 :=
  ⟨(try_enqueue_drop_on_full chanFull "c" []).1 (by decide),
   (try_enqueue_drop_on_full { capacity := 1, queue := [] } "q" ["x", "y", "z"]).2.2.1
     (by decide)⟩

/-- C9: `max_level` is the maximum of the default level and every override
level (it bounds each of them and is attained by one of them), every admitted
record's level filter is below it, and `init` installs exactly this value as
the facade's global max level — so the global level never filters out an
admissible record. -/
theorem max_level_dominates_enabled (l : BetterStackLogger) :
    fle l.default_level (max_level l) = true
  ∧ (∀ p ∈ l.module_levels, fle p.2 (max_level l) = true)
  ∧ (max_level l = l.default_level ∨ ∃ p ∈ l.module_levels, max_level l = p.2)
  ∧ (∀ lev t, enabled l lev t = true → fle lev.to_level_filter (max_level l) = true)
  ∧ (∀ st, st.sinkInstalled = false →
      BetterStackLogger.init l st =
        Except.ok { maxLevel := max_level l, sinkInstalled := true }) := by
  refine ⟨?_, ?_, ?_, ?_, ?_⟩
  · rw [fle_iff]
    exact rank_default_le_max_level l
  · intro p hp
    rw [fle_iff]
    exact rank_entry_le_max_level l p hp
  · unfold max_level
    cases hms : l.module_levels.map Prod.snd with
    | nil => simp [iterMaxOpt]
    | cons a as =>
      rw [iterMaxOpt_some]
      have hred : (match some (foldlMax a as) with
          | some m => filterMax m l.default_level
          | none => l.default_level) = filterMax (foldlMax a as) l.default_level := rfl
      rw [hred]
      rcases filterMax_cases (foldlMax a as) l.default_level with hc | hc
      · rw [hc]
        have hmem : foldlMax a as ∈ l.module_levels.map Prod.snd := by
          rw [hms]
          rcases foldlMax_mem_or as a with h | h
          · rw [h]; exact List.mem_cons_self a as
          · exact List.mem_cons_of_mem a h
        rcases List.mem_map.mp hmem with ⟨p, hp, heq⟩
        exact Or.inr ⟨p, hp, heq.symm⟩
      · rw [hc]
        exact Or.inl rfl
  · intro lev t h
    have h' : fle lev.to_level_filter (resolve l t) = true := h
    refine fle_trans h' ?_
    rw [fle_iff]
    exact rank_resolve_le_max_level l t
  · intro st hsi
    simp [BetterStackLogger.init, set_boxed_logger, set_max_level, hsi]

/-- A concrete logger with one override. -/
def wLogger : BetterStackLogger := (BetterStackLogger.new "tok").with_module_level "a" .Warn

/-- Witness for C9 at `wLogger`: its override level and an admitted record's
level filter both sit below `max_level`, and `init` on a fresh facade installs
`max_level wLogger`. -/
theorem max_level_dominates_enabled_witness :
    fle LevelFilter.Warn (max_level wLogger) = true
  ∧ fle (Level.to_level_filter Level.Error) (max_level wLogger) = true
  ∧ BetterStackLogger.init wLogger { maxLevel := LevelFilter.Off, sinkInstalled := false } =
      Except.ok { maxLevel := max_level wLogger, sinkInstalled := true } :=
  ⟨(max_level_dominates_enabled wLogger).2.1 ("a", LevelFilter.Warn) (by decide),
   (max_level_dominates_enabled wLogger).2.2.2.1 Level.Error "abc" (by decide),
   (max_level_dominates_enabled wLogger).2.2.2.2
     { maxLevel := LevelFilter.Off, sinkInstalled := false } rfl⟩

/-- C10: the serialization step inside `log` cannot take the error branch: for
every record, encoding the built message (a plain string) yields `ok` with the
JSON string literal of that message, so the `.unwrap()` never panics. -/
theorem log_serialization_infallible (r : Record) (e : String) :
    serdeToStringStr (build_log_message r) ≠ Except.error e
  ∧ serdeToStringStr (build_log_message r) =
      Except.ok (renderJsonStr (build_log_message r)) :=
  ⟨fun h => Except.noConfusion h, rfl⟩

/-- Witness for C10 at `recC4`: the serialization step returns the quoted,
escaped message. -/
theorem log_serialization_infallible_witness :
    serdeToStringStr (build_log_message recC4) = Except.ok "\"INFO  [app] hello\"" :=
  ((log_serialization_infallible recC4 "x").2).trans (congrArg Except.ok (by decide))

/-- Witness for C6 at an already-installed facade state: `init` on a fresh
logger reports failure, and the surfaced error is `AlreadySet`. -/
theorem init_error_iff_installed_witness :
    (BetterStackLogger.init (BetterStackLogger.new "tok")
      { maxLevel := LevelFilter.Off, sinkInstalled := true }).isOk = false
  ∧ SetLoggerError.AlreadySet = SetLoggerError.AlreadySet :=
  ⟨(init_error_iff_installed (BetterStackLogger.new "tok") "tok"
      { maxLevel := LevelFilter.Off, sinkInstalled := true }).1.mpr rfl,
   (init_error_iff_installed (BetterStackLogger.new "tok") "tok"
      { maxLevel := LevelFilter.Off, sinkInstalled := true }).2.1
     SetLoggerError.AlreadySet rfl⟩
